import Mathlib

/-!
Shallow embedding of the virt-hid virtual HID device library
(src/key.rs, src/mouse.rs, src/translate.rs), together with proofs about
the report encoding, the keyboard packet queue and its collision
avoidance, the flush operations, and the mouse flush logic.

Machine bytes (u8) are modelled as natural numbers below 256; bitwise
operations use Nat's `&&&`, `|||` and `^^^` and shifts, and the u8
bitwise complement !x is rendered as 255 ^^^ x, which agrees with !x on
bytes.  Reports are lists of bytes.  The HID transport is modelled as a
write log together with a failure schedule: `failOn n` tells whether the
n-th write performed through the transport fails.
-/

/-- Key report (KeyPacket in key.rs): modifier byte at index 0 followed by
a 32-byte keycode bitmap, 33 bytes in all (KEY_PACKET_LEN). -/
structure KeyPacket where
  data : List Nat
deriving DecidableEq

/-- KeyPacket::new — the all-zero 33-byte report. -/
def KeyPacket.new : KeyPacket := ⟨List.replicate 33 0⟩

/-- KeyPacket::add_key — OR the modifier bits kbytes.1 into byte 0 and set
bit (k % 8) of keycode-bitmap byte 1 + k / 8, for k = kbytes.2. -/
def KeyPacket.addKey (p : KeyPacket) (kbytes : Nat × Nat) : KeyPacket :=
  let d := p.data.set 0 (p.data.getD 0 0 ||| kbytes.1)
  ⟨d.set (1 + kbytes.2 / 8) (d.getD (1 + kbytes.2 / 8) 0 ||| (1 <<< (kbytes.2 % 8)))⟩

/-- KeyPacket::remove_key — AND byte 0 with the complement of the modifier
bits and clear bit (k % 8) of keycode-bitmap byte 1 + k / 8. -/
def KeyPacket.removeKey (p : KeyPacket) (kbytes : Nat × Nat) : KeyPacket :=
  let d := p.data.set 0 (p.data.getD 0 0 &&& (255 ^^^ kbytes.1))
  ⟨d.set (1 + kbytes.2 / 8) (d.getD (1 + kbytes.2 / 8) 0 &&& (255 ^^^ (1 <<< (kbytes.2 % 8))))⟩

/-- KeyPacket::get_key — test bit (k % 8) of keycode-bitmap byte 1 + k / 8. -/
def KeyPacket.getKey (p : KeyPacket) (kbytes : Nat × Nat) : Bool :=
  p.data.getD (1 + kbytes.2 / 8) 0 &&& (1 <<< (kbytes.2 % 8)) != 0

/-- KeyPacket::contains_any — true iff some keycode-bitmap byte (indices
1..32 inclusive; the modifier byte 0 is excluded) of the two reports
shares a set bit. -/
def KeyPacket.containsAny (p other : KeyPacket) : Bool :=
  (List.range' 1 32).any (fun i => other.data.getD i 0 &&& p.data.getD i 0 != 0)

/-- Modifier keys (translate.rs). -/
inductive Modifier
  | LeftControl | LeftShift | LeftAlt | LeftMeta
  | RightControl | RightShift | RightAlt | RightMeta
deriving DecidableEq

/-- Modifier::to_mkbyte — one bit per modifier. -/
def Modifier.toMkbyte : Modifier → Nat
  | .RightMeta => 1 <<< 7
  | .RightAlt => 1 <<< 6
  | .RightShift => 1 <<< 5
  | .RightControl => 1 <<< 4
  | .LeftMeta => 1 <<< 3
  | .LeftAlt => 1 <<< 2
  | .LeftShift => 1 <<< 1
  | .LeftControl => 1

/-- KeyPacket::add_mod / push_modifier — OR a modifier bit into byte 0. -/
def KeyPacket.addMod (p : KeyPacket) (m : Modifier) : KeyPacket :=
  ⟨p.data.set 0 (p.data.getD 0 0 ||| m.toMkbyte)⟩

/-- KeyPacket::remove_mod — AND byte 0 with the complement of the modifier bit. -/
def KeyPacket.removeMod (p : KeyPacket) (m : Modifier) : KeyPacket :=
  ⟨p.data.set 0 (p.data.getD 0 0 &&& (255 ^^^ m.toMkbyte))⟩

/-- LED state flags (key.rs). -/
inductive LEDState
  | Kana | Compose | ScrollLock | CapsLock | NumLock
deriving DecidableEq

/-- LEDState::get_state — test the flag's fixed bit of the LED feedback byte:
bit 4 Kana, bit 3 Compose, bit 2 ScrollLock, bit 1 CapsLock, bit 0 NumLock. -/
def LEDState.getState (s : LEDState) (packet : Nat) : Bool :=
  match s with
  | .Kana => packet &&& (1 <<< 4) != 0
  | .Compose => packet &&& (1 <<< 3) != 0
  | .ScrollLock => packet &&& (1 <<< 2) != 0
  | .CapsLock => packet &&& (1 <<< 1) != 0
  | .NumLock => packet &&& 1 != 0

/-- Key press origin (translate.rs). -/
inductive KeyOrigin
  | Keyboard | Keypad | Misc
deriving DecidableEq

/-- Character table of ToKBytes::to_kbytes for KeyOrigin::Keyboard
(translate.rs): each entry is (char, modifier byte, keycode byte), listed
in source order. -/
def keyboardKeys : List (Char × Nat × Nat) :=
  [ ('\n', 0x00, 0x58)
  , ('\t', 0x00, 0x2B)
  , (' ', 0x00, 0x2C)
  , ('a', 0x00, 0x04), ('A', Modifier.LeftShift.toMkbyte, 0x04)
  , ('b', 0x00, 0x05), ('B', Modifier.LeftShift.toMkbyte, 0x05)
  , ('c', 0x00, 0x06), ('C', Modifier.LeftShift.toMkbyte, 0x06)
  , ('d', 0x00, 0x07), ('D', Modifier.LeftShift.toMkbyte, 0x07)
  , ('e', 0x00, 0x08), ('E', Modifier.LeftShift.toMkbyte, 0x08)
  , ('f', 0x00, 0x09), ('F', Modifier.LeftShift.toMkbyte, 0x09)
  , ('g', 0x00, 0x0A), ('G', Modifier.LeftShift.toMkbyte, 0x0A)
  , ('h', 0x00, 0x0B), ('H', Modifier.LeftShift.toMkbyte, 0x0B)
  , ('i', 0x00, 0x0C), ('I', Modifier.LeftShift.toMkbyte, 0x0C)
  , ('j', 0x00, 0x0D), ('J', Modifier.LeftShift.toMkbyte, 0x0D)
  , ('k', 0x00, 0x0E), ('K', Modifier.LeftShift.toMkbyte, 0x0E)
  , ('l', 0x00, 0x0F), ('L', Modifier.LeftShift.toMkbyte, 0x0F)
  , ('m', 0x00, 0x10), ('M', Modifier.LeftShift.toMkbyte, 0x10)
  , ('n', 0x00, 0x11), ('N', Modifier.LeftShift.toMkbyte, 0x11)
  , ('o', 0x00, 0x12), ('O', Modifier.LeftShift.toMkbyte, 0x12)
  , ('p', 0x00, 0x13), ('P', Modifier.LeftShift.toMkbyte, 0x13)
  , ('q', 0x00, 0x14), ('Q', Modifier.LeftShift.toMkbyte, 0x14)
  , ('r', 0x00, 0x15), ('R', Modifier.LeftShift.toMkbyte, 0x15)
  , ('s', 0x00, 0x16), ('S', Modifier.LeftShift.toMkbyte, 0x16)
  , ('t', 0x00, 0x17), ('T', Modifier.LeftShift.toMkbyte, 0x17)
  , ('u', 0x00, 0x18), ('U', Modifier.LeftShift.toMkbyte, 0x18)
  , ('v', 0x00, 0x19), ('V', Modifier.LeftShift.toMkbyte, 0x19)
  , ('w', 0x00, 0x1A), ('W', Modifier.LeftShift.toMkbyte, 0x1A)
  , ('x', 0x00, 0x1B), ('X', Modifier.LeftShift.toMkbyte, 0x1B)
  , ('y', 0x00, 0x1C), ('Y', Modifier.LeftShift.toMkbyte, 0x1C)
  , ('z', 0x00, 0x1D), ('Z', Modifier.LeftShift.toMkbyte, 0x1D)
  , ('1', 0x00, 0x1E), ('!', Modifier.LeftShift.toMkbyte, 0x1E)
  , ('2', 0x00, 0x1F), ('@', Modifier.LeftShift.toMkbyte, 0x1F)
  , ('3', 0x00, 0x20), ('#', Modifier.LeftShift.toMkbyte, 0x20)
  , ('4', 0x00, 0x21), ('$', Modifier.LeftShift.toMkbyte, 0x21)
  , ('5', 0x00, 0x22), ('%', Modifier.LeftShift.toMkbyte, 0x22)
  , ('6', 0x00, 0x23), ('^', Modifier.LeftShift.toMkbyte, 0x23)
  , ('7', 0x00, 0x24), ('&', Modifier.LeftShift.toMkbyte, 0x24)
  , ('8', 0x00, 0x25), ('*', Modifier.LeftShift.toMkbyte, 0x25)
  , ('9', 0x00, 0x26), ('(', Modifier.LeftShift.toMkbyte, 0x26)
  , ('0', 0x00, 0x27), (')', Modifier.LeftShift.toMkbyte, 0x27)
  , ('-', 0x00, 0x2D), ('_', Modifier.LeftShift.toMkbyte, 0x2D)
  , ('=', 0x00, 0x2E), ('+', Modifier.LeftShift.toMkbyte, 0x2E)
  , ('[', 0x00, 0x2F), ('\x7b', Modifier.LeftShift.toMkbyte, 0x2F)
  , (']', 0x00, 0x30), ('\x7d', Modifier.LeftShift.toMkbyte, 0x30)
  , ('\\', 0x00, 0x31), ('|', Modifier.LeftShift.toMkbyte, 0x31)
  , (';', 0x00, 0x33), (':', Modifier.LeftShift.toMkbyte, 0x33)
  , ('\'', 0x00, 0x34), ('“', Modifier.LeftShift.toMkbyte, 0x34)
  , ('~', 0x00, 0x35), ('\x60', Modifier.LeftShift.toMkbyte, 0x35)
  , (',', 0x00, 0x36), ('<', Modifier.LeftShift.toMkbyte, 0x36)
  , ('.', 0x00, 0x37), ('>', Modifier.LeftShift.toMkbyte, 0x37)
  , ('/', 0x00, 0x38), ('?', Modifier.LeftShift.toMkbyte, 0x38) ]

/-- Character table of ToKBytes::to_kbytes for KeyOrigin::Keypad
(translate.rs), in source order. -/
def keypadKeys : List (Char × Nat × Nat) :=
  [ ('/', 0x00, 0x54)
  , ('*', 0x00, 0x55)
  , ('-', 0x00, 0x56)
  , ('+', 0x00, 0x57)
  , ('=', 0x00, 0x67)
  , ('(', 0x00, 0xB6)
  , (')', 0x00, 0xB7)
  , ('\x7b', 0x00, 0xB8)
  , ('\x7d', 0x00, 0xB9)
  , ('A', 0x00, 0xBC)
  , ('B', 0x00, 0xBD)
  , ('C', 0x00, 0xBE)
  , ('D', 0x00, 0xBF)
  , ('E', 0x00, 0xC0)
  , ('F', 0x00, 0xC1)
  , ('^', 0x00, 0xC3)
  , ('%', 0x00, 0xC4)
  , ('<', 0x00, 0xC5)
  , ('>', 0x00, 0xC6)
  , ('&', 0x00, 0xC7)
  , ('|', 0x00, 0xC9)
  , (':', 0x00, 0xCB)
  , ('#', 0x00, 0xCC)
  , ('@', 0x00, 0xCE)
  , ('!', 0x00, 0xCF) ]

/-- ToKBytes::to_kbytes for char (translate.rs): resolve a character to its
(modifier byte, keycode byte) pair under the given origin; characters
without a mapping (and every Misc-origin character) resolve to none. -/
def toKBytes (c : Char) (origin : KeyOrigin) : Option (Nat × Nat) :=
  match origin with
  | .Keyboard => (keyboardKeys.find? (fun e => e.1 == c)).map (fun e => e.2)
  | .Keypad => (keypadKeys.find? (fun e => e.1 == c)).map (fun e => e.2)
  | .Misc => none

/-- Virtual keyboard (key.rs): the pending packet queue and the ambient
hold-state report (the LED-state field plays no role in queueing and is
omitted). -/
structure Keyboard where
  packets : List KeyPacket
  holding : KeyPacket
deriving DecidableEq

/-- Keyboard::new — empty queue, all-zero hold-state. -/
def Keyboard.new : Keyboard := ⟨[], KeyPacket.new⟩

/-- Keyboard::create_release_packet — a clone of the hold-state. -/
def Keyboard.createReleasePacket (kb : Keyboard) : KeyPacket := kb.holding

/-- Keyboard::add_buffer — when the last queued packet shares a
keycode-bitmap bit with the candidate packet, queue a release snapshot of
the hold-state first. -/
def Keyboard.addBuffer (kb : Keyboard) (packet : KeyPacket) : Keyboard :=
  match kb.packets.getLast? with
  | some last =>
    if last.containsAny packet then
      { kb with packets := kb.packets ++ [kb.createReleasePacket] }
    else kb
  | none => kb

/-- Keyboard::hold_mod — OR the modifier into the hold-state, then queue a
snapshot of the updated hold-state. -/
def Keyboard.holdMod (kb : Keyboard) (m : Modifier) : Keyboard :=
  let kb1 := { kb with holding := kb.holding.addMod m }
  { kb1 with packets := kb1.packets ++ [kb1.createReleasePacket] }

/-- Keyboard::release_mod — clear the modifier from the hold-state, then
queue a snapshot of the updated hold-state. -/
def Keyboard.releaseMod (kb : Keyboard) (m : Modifier) : Keyboard :=
  let kb1 := { kb with holding := kb.holding.removeMod m }
  { kb1 with packets := kb1.packets ++ [kb1.createReleasePacket] }

/-- Keyboard::press_char — build a packet from a hold-state snapshot plus
the resolved character (push_char's failure on an unresolved character is
ignored, as in the source), run the add_buffer collision check, then queue
the packet. -/
def Keyboard.pressChar (kb : Keyboard) (c : Char) (origin : KeyOrigin) : Keyboard :=
  let packet := kb.createReleasePacket
  let packet := match toKBytes c origin with
    | some kbytes => packet.addKey kbytes
    | none => packet
  let kb1 := kb.addBuffer packet
  { kb1 with packets := kb1.packets ++ [packet] }

/-- Keyboard::press_basic_string over the string's character list: an
unresolved character is skipped; a resolved character queues a hold-state
snapshot plus the key and, when get_key confirms the bit, a release
snapshot of the hold-state after it. -/
def Keyboard.pressBasicString (kb : Keyboard) (s : List Char) : Keyboard :=
  match s with
  | [] => kb
  | c :: cs =>
    match toKBytes c KeyOrigin.Keyboard with
    | none => kb.pressBasicString cs
    | some kbytes =>
      let packet := (kb.createReleasePacket).addKey kbytes
      let needsSpace := packet.getKey kbytes
      let kb1 := { kb with packets := kb.packets ++ [packet] }
      let kb2 :=
        if needsSpace then { kb1 with packets := kb1.packets ++ [kb1.createReleasePacket] }
        else kb1
      kb2.pressBasicString cs

/-- Modelled from the spec: press_string of basic characters as §4.2 of the
specification describes it — for each character resolve via the layout
function, silently skip an unresolved character, and otherwise produce one
transient report (hold-state snapshot plus the key) preceded by the
collision check against the previous queue entry. -/
def Keyboard.pressBasicStringSpec (kb : Keyboard) (s : List Char) : Keyboard :=
  match s with
  | [] => kb
  | c :: cs =>
    match toKBytes c KeyOrigin.Keyboard with
    | none => kb.pressBasicStringSpec cs
    | some kbytes =>
      let packet := (kb.createReleasePacket).addKey kbytes
      let kb1 := kb.addBuffer packet
      ({ kb1 with packets := kb1.packets ++ [packet] }).pressBasicStringSpec cs

/-- Transport model (hid.rs): the ordered log of reports already written
through the interface, together with a failure schedule — failOn n tells
whether the n-th write performed through this transport fails. -/
structure HID where
  log : List (List Nat)
  failOn : Nat → Bool

/-- HID::send_key_packet — a durable blocking write, modelled as appending
the report to the log; none models an io::Error. -/
def HID.sendKeyPacket (hid : HID) (d : List Nat) : Option HID :=
  if hid.failOn hid.log.length then none
  else some { hid with log := hid.log ++ [d] }

/-- HID::send_mouse_packet — same durability contract as the keyboard
channel. -/
def HID.sendMousePacket (hid : HID) (d : List Nat) : Option HID :=
  if hid.failOn hid.log.length then none
  else some { hid with log := hid.log ++ [d] }

/-- KeyPacket::send_all — write the packets in order, stopping at (and
propagating) the first failure. -/
def KeyPacket.sendAll (packets : List KeyPacket) (hid : HID) : HID × Bool :=
  match packets with
  | [] => (hid, true)
  | p :: ps =>
    match hid.sendKeyPacket p.data with
    | none => (hid, false)
    | some h1 => KeyPacket.sendAll ps h1

/-- Keyboard::send — if the queue is empty return Ok at once; otherwise
queue a final hold-state snapshot, write every queued packet in order,
and clear the queue on success.  On failure the mutated queue (with the
appended snapshot) is kept, as the &mut self borrow in the source does. -/
def Keyboard.send (kb : Keyboard) (hid : HID) : Keyboard × HID × Bool :=
  if kb.packets.length = 0 then (kb, hid, true)
  else
    let kb1 := { kb with packets := kb.packets ++ [kb.createReleasePacket] }
    match KeyPacket.sendAll kb1.packets hid with
    | (hid1, true) => ({ kb1 with packets := [] }, hid1, true)
    | (hid1, false) => (kb1, hid1, false)

/-- Keyboard::send_keep — if the queue is empty return Ok at once;
otherwise write every queued packet in order and then write one hold-state
snapshot without queueing it.  The receiver is &self in the source, so the
keyboard is returned unchanged. -/
def Keyboard.sendKeep (kb : Keyboard) (hid : HID) : Keyboard × HID × Bool :=
  if kb.packets.length = 0 then (kb, hid, true)
  else
    match KeyPacket.sendAll kb.packets hid with
    | (hid1, true) =>
      match hid1.sendKeyPacket kb.createReleasePacket.data with
      | some hid2 => (kb, hid2, true)
      | none => (kb, hid1, false)
    | (hid1, false) => (kb, hid1, false)

/-- Mouse report field indices (mouse.rs). -/
def MOUSE_DATA_BUT_IDX : Nat := 0

/-- Mouse X delta index. -/
def MOUSE_DATA_X_IDX : Nat := 1

/-- Mouse Y delta index. -/
def MOUSE_DATA_Y_IDX : Nat := 2

/-- Mouse wheel delta index. -/
def MOUSE_DATA_WHEL_IDX : Nat := 3

/-- Mouse movement direction (mouse.rs). -/
inductive MouseDir
  | X | Y
deriving DecidableEq

/-- Virtual mouse (mouse.rs): the pending 5-byte report and the held-button
bitmask. -/
structure Mouse where
  data : List Nat
  hold : Nat
deriving DecidableEq

/-- Mouse::new — zero report, nothing held. -/
def Mouse.new : Mouse := ⟨List.replicate 5 0, 0⟩

/-- Two's-complement byte of an i8 displacement, i.e. to_be_bytes()[0]. -/
def i8Byte (d : Int) : Nat := (d % 256).toNat

/-- Mouse::move_mouse — overwrite the axis byte of the pending report with
the displacement's byte. -/
def Mouse.moveMouse (m : Mouse) (displacement : Int) (dir : MouseDir) : Mouse :=
  match dir with
  | .X => { m with data := m.data.set MOUSE_DATA_X_IDX (i8Byte displacement) }
  | .Y => { m with data := m.data.set MOUSE_DATA_Y_IDX (i8Byte displacement) }

/-- Mouse::send — with an empty hold mask, write the pending report and
then an all-zero report; otherwise write the pending report with the hold
mask OR-ed into the button byte, then a report whose button byte is the
hold mask and whose other bytes are zero, resetting the pending button
byte afterwards. -/
def Mouse.send (m : Mouse) (hid : HID) : Mouse × HID × Bool :=
  if m.hold = 0 then
    match hid.sendMousePacket m.data with
    | none => (m, hid, false)
    | some h1 =>
      let m1 : Mouse := { m with data := List.replicate 5 0 }
      match h1.sendMousePacket m1.data with
      | none => (m1, h1, false)
      | some h2 => (m1, h2, true)
  else
    let d1 := m.data.set MOUSE_DATA_BUT_IDX (m.data.getD MOUSE_DATA_BUT_IDX 0 ||| m.hold)
    match hid.sendMousePacket d1 with
    | none => ({ m with data := d1 }, hid, false)
    | some h1 =>
      let d2 := (List.replicate 5 0).set MOUSE_DATA_BUT_IDX m.hold
      match h1.sendMousePacket d2 with
      | none => ({ m with data := List.replicate 5 0 }, h1, false)
      | some h2 => ({ m with data := List.replicate 5 0 }, h2, true)

/-- Adjacent-collision check over a packet queue: true when no two
consecutive packets share a keycode-bitmap bit, i.e. for every index i,
contains_any(queue[i], queue[i+1]) is false. -/
def noAdjacentCollide : List KeyPacket → Bool
  | a :: b :: rest => !a.containsAny b && noAdjacentCollide (b :: rest)
  | _ => true

/-- A transport on which every write succeeds. -/
def hidOK : HID := ⟨[], fun _ => false⟩

/-- A transport on which every write fails. -/
def hidFail : HID := ⟨[], fun _ => true⟩

/-- The report asserting only keycode 0x04 ('a'). -/
def aKeyPacket : KeyPacket := KeyPacket.new.addKey (0x00, 0x04)

/-- A keyboard with an empty hold-state whose queue already holds two equal
'a' reports back to back (reachable, e.g. through two press_packet calls). -/
def twoAKeyboard : Keyboard := ⟨[aKeyPacket, aKeyPacket], KeyPacket.new⟩

/-- The queue of twoAKeyboard after pressing 'a' twice. -/
def twoAPressed : Keyboard :=
  (twoAKeyboard.pressChar 'a' KeyOrigin.Keyboard).pressChar 'a' KeyOrigin.Keyboard

/-- A keyboard holding one queued all-zero snapshot with an empty
hold-state (reachable from Keyboard::new by one release_mod call). -/
def oneSnapshotKeyboard : Keyboard := ⟨[KeyPacket.new], KeyPacket.new⟩

/-- The scenario hold(LeftShift); press('a'); press('a'); release(LeftShift);
flush() run from a fresh keyboard against an always-succeeding transport. -/
def shiftScenario : Keyboard × HID × Bool :=
  (((((Keyboard.new.holdMod Modifier.LeftShift).pressChar 'a' KeyOrigin.Keyboard).pressChar
    'a' KeyOrigin.Keyboard).releaseMod Modifier.LeftShift).send hidOK)

/-- The 33-byte all-zero report, as raw bytes. -/
def zeroReport : List Nat := List.replicate 33 0

/-- The raw report asserting only LeftShift. -/
def shiftReport : List Nat := zeroReport.set 0 2

/-- The raw report asserting LeftShift plus keycode 0x04 ('a'). -/
def shiftAReport : List Nat := (zeroReport.set 0 2).set 1 16

theorem getD_replicate_zero (n i : Nat) : (List.replicate n (0 : Nat)).getD i 0 = 0 := by
  induction n generalizing i with
  | zero => simp [List.getD_nil]
  | succ n ih =>
    cases i with
    | zero => simp [List.replicate_succ]
    | succ i => simp [List.replicate_succ]

theorem getD_set_self (l : List Nat) (i v : Nat) (h : i < l.length) :
    (l.set i v).getD i 0 = v := by
  induction l generalizing i with
  | nil => simp at h
  | cons a l ih =>
    cases i with
    | zero => simp
    | succ i => simpa using ih i (by simpa using h)

theorem getD_set_ne (l : List Nat) (i j v : Nat) (h : i ≠ j) :
    (l.set i v).getD j 0 = l.getD j 0 := by
  induction l generalizing i j with
  | nil => simp
  | cons a l ih =>
    cases i with
    | zero =>
      cases j with
      | zero => exact absurd rfl h
      | succ j => simp
    | succ i =>
      cases j with
      | zero => simp
      | succ j => simpa using ih i j (by omega)

theorem byte_or_and_compl (r m : Nat) (hm : m < 256) :
    (r ||| m) &&& (255 ^^^ m) = r &&& (255 ^^^ m) := by
  apply Nat.eq_of_testBit_eq
  intro i
  simp only [Nat.testBit_and, Nat.testBit_or, Nat.testBit_xor]
  by_cases hi : i < 8
  · have h255 : (255 : Nat).testBit i = true := by
      have := Nat.testBit_two_pow_sub_one 8 i
      simpa [hi] using this
    rw [h255]
    cases hmb : m.testBit i <;> simp
  · have h256 : (256 : Nat) ≤ 2 ^ i := by
      calc (256 : Nat) = 2 ^ 8 := by norm_num
      _ ≤ 2 ^ i := Nat.pow_le_pow_right (by omega) (by omega)
    have hmb : m.testBit i = false := Nat.testBit_lt_two_pow (lt_of_lt_of_le hm h256)
    have h255 : (255 : Nat).testBit i = false := by
      have := Nat.testBit_two_pow_sub_one 8 i
      simpa [hi] using this
    simp [hmb, h255]

theorem byte_or_and_self (a b : Nat) : (a ||| b) &&& b = b := by
  apply Nat.eq_of_testBit_eq
  intro i
  simp only [Nat.testBit_and, Nat.testBit_or]
  cases a.testBit i <;> cases b.testBit i <;> rfl

theorem shiftLeft_lt_256 (s : Nat) (h : s < 8) : (1 <<< s) < 256 := by
  rw [Nat.one_shiftLeft]
  calc 2 ^ s ≤ 2 ^ 7 := Nat.pow_le_pow_right (by omega) (by omega)
  _ < 256 := by omega

theorem shiftLeft_ne_zero (s : Nat) : (1 <<< s) ≠ 0 := by
  rw [Nat.one_shiftLeft]
  exact Nat.pos_iff_ne_zero.mp (Nat.pos_pow_of_pos s (by omega))

theorem containsAny_new_left (p : KeyPacket) : KeyPacket.new.containsAny p = false := by
  rw [KeyPacket.containsAny, List.any_eq_false]
  intro i _
  have h0 : KeyPacket.new.data[i]?.getD 0 = 0 := by
    simpa [List.getD] using getD_replicate_zero 33 i
  simp [h0]

theorem containsAny_new_right (p : KeyPacket) : p.containsAny KeyPacket.new = false := by
  rw [KeyPacket.containsAny, List.any_eq_false]
  intro i _
  have h0 : KeyPacket.new.data[i]?.getD 0 = 0 := by
    simpa [List.getD] using getD_replicate_zero 33 i
  simp [h0]

theorem noAdjacentCollide_append (l : List KeyPacket) (p : KeyPacket)
    (hl : noAdjacentCollide l = true)
    (hlast : ∀ q, l.getLast? = some q → q.containsAny p = false) :
    noAdjacentCollide (l ++ [p]) = true := by
  induction l with
  | nil => simp [noAdjacentCollide]
  | cons a l ih =>
    cases l with
    | nil =>
      have ha : a.containsAny p = false := hlast a rfl
      simp [noAdjacentCollide, ha]
    | cons b l2 =>
      rw [noAdjacentCollide] at hl
      have h1 : a.containsAny b = false := by
        cases h : a.containsAny b <;> simp [h] at hl ⊢
      have h2 : noAdjacentCollide (b :: l2) = true := by
        cases h : noAdjacentCollide (b :: l2) <;> simp [h] at hl ⊢
      have hlast2 : ∀ q, (b :: l2).getLast? = some q → q.containsAny p = false := by
        intro q hq
        exact hlast q (by rwa [List.getLast?_cons_cons])
      have := ih h2 hlast2
      simpa [noAdjacentCollide, h1] using this

theorem addBuffer_holding (kb : Keyboard) (p : KeyPacket) :
    (kb.addBuffer p).holding = kb.holding := by
  rw [Keyboard.addBuffer]
  cases kb.packets.getLast? with
  | none => rfl
  | some last => dsimp only; split <;> rfl

theorem pressChar_holding (kb : Keyboard) (c : Char) (o : KeyOrigin) :
    (kb.pressChar c o).holding = kb.holding := by
  rw [Keyboard.pressChar]
  dsimp only
  exact addBuffer_holding kb _

theorem noAdjacentCollide_pressChar (kb : Keyboard) (c : Char) (o : KeyOrigin)
    (hh : kb.holding = KeyPacket.new)
    (hq : noAdjacentCollide kb.packets = true) :
    noAdjacentCollide (kb.pressChar c o).packets = true := by
  rw [Keyboard.pressChar]
  dsimp only
  generalize (match toKBytes c o with
    | some kbytes => kb.createReleasePacket.addKey kbytes
    | none => kb.createReleasePacket) = p
  rw [Keyboard.addBuffer]
  cases hlast : kb.packets.getLast? with
  | none =>
    have hnil : kb.packets = [] := List.getLast?_eq_none_iff.mp hlast
    simp [hnil, noAdjacentCollide]
  | some last =>
    dsimp only
    split
    case isTrue hcol =>
      dsimp only
      rw [List.append_assoc]
      have h1 : noAdjacentCollide (kb.packets ++ [kb.createReleasePacket]) = true := by
        apply noAdjacentCollide_append _ _ hq
        intro q hq'
        rw [hlast] at hq'
        cases hq'
        rw [Keyboard.createReleasePacket, hh]
        exact containsAny_new_right last
      rw [← List.append_assoc]
      apply noAdjacentCollide_append _ _ h1
      intro q hq'
      rw [List.getLast?_concat] at hq'
      cases hq'
      rw [Keyboard.createReleasePacket, hh]
      exact containsAny_new_left p
    case isFalse hcol =>
      apply noAdjacentCollide_append _ _ hq
      intro q hq'
      rw [hlast] at hq'
      cases hq'
      simpa using hcol

/-- C1 (amended): for every keyboard whose hold-state is the empty report
and whose queue already contains no two adjacent colliding entries,
pressing a character that resolves to a keycode twice in immediate
succession leaves a queue in which no two adjacent entries collide —
press_char inserts a synthetic release snapshot of the hold-state between
the two colliding transient reports. -/
theorem C1_press_twice_no_adjacent_collision (kb : Keyboard) (c : Char) (o : KeyOrigin)
    (t : Nat × Nat) (hhold : kb.holding = KeyPacket.new)
    (hres : toKBytes c o = some t)
    (hq : noAdjacentCollide kb.packets = true) :
    noAdjacentCollide ((kb.pressChar c o).pressChar c o).packets = true := by
  have h1 := noAdjacentCollide_pressChar kb c o hhold hq
  exact noAdjacentCollide_pressChar _ c o (by rw [pressChar_holding, hhold]) h1

/-- Witness for C1: from a fresh keyboard, pressing 'a' twice yields a
queue with no two adjacent colliding entries. -/
theorem C1_witness :
    toKBytes 'a' KeyOrigin.Keyboard = some (0x00, 0x04) ∧
    noAdjacentCollide
      ((Keyboard.new.pressChar 'a' KeyOrigin.Keyboard).pressChar 'a'
        KeyOrigin.Keyboard).packets = true :=
  ⟨by decide,
    C1_press_twice_no_adjacent_collision Keyboard.new 'a' KeyOrigin.Keyboard
      (0x00, 0x04) rfl (by decide) rfl⟩

/-- Counterexample for C1 as stated: a keyboard with an empty hold-state
whose queue already holds two adjacent colliding 'a' reports still has
adjacent colliding entries after pressing 'a' twice, so the claim's
universal quantification over every keyboard state with an empty
hold-state fails. -/
theorem C1_counterexample :
    twoAKeyboard.holding = KeyPacket.new ∧
    toKBytes 'a' KeyOrigin.Keyboard = some (0x00, 0x04) ∧
    noAdjacentCollide twoAPressed.packets = false :=
  ⟨rfl, by decide, by decide⟩

/-- C2 (amended): the scenario hold(LeftShift); press('a'); press('a');
release(LeftShift); flush() from a fresh keyboard writes exactly 6 reports
in order: [shift] (queued by hold_mod), [shift + 'a'], [shift] (synthetic
release), [shift + 'a'], [all zero] (queued by release_mod), [all zero]
(final ambient snapshot); no two adjacent written reports collide on any
keycode bit, in particular not on the 'a' bit, and the queue is cleared. -/
theorem C2_shift_scenario :
    shiftScenario.2.1.log =
      [shiftReport, shiftAReport, shiftReport, shiftAReport, zeroReport, zeroReport] ∧
    shiftScenario.2.2 = true ∧
    shiftScenario.1.packets = [] ∧
    noAdjacentCollide
      [⟨shiftReport⟩, ⟨shiftAReport⟩, ⟨shiftReport⟩, ⟨shiftAReport⟩,
        ⟨zeroReport⟩, ⟨zeroReport⟩] = true := by
  decide

/-- Counterexample for C2 as stated: the scenario writes 6 reports, not 4
(hold_mod and release_mod each queue a snapshot, and flush appends a final
one). -/
theorem C2_counterexample : shiftScenario.2.1.log.length ≠ 4 := by decide

/-- C7 (amended): decoding the LED feedback byte 0b00010011 yields
NumLock = true, CapsLock = true, ScrollLock = false, Compose = false and
Kana = true (bits 0, 1 and 4 of the byte are set, and bit 4 is Kana). -/
theorem C7_led_decode :
    LEDState.NumLock.getState 0b00010011 = true ∧
    LEDState.CapsLock.getState 0b00010011 = true ∧
    LEDState.ScrollLock.getState 0b00010011 = false ∧
    LEDState.Compose.getState 0b00010011 = false ∧
    LEDState.Kana.getState 0b00010011 = true := by decide

/-- Counterexample for C7 as stated: the claim says Kana decodes to false
on 0b00010011, but bit 4 of that byte is set, so get_state returns true. -/
theorem C7_counterexample : LEDState.Kana.getState 0b00010011 = true := by decide

theorem sendAll_ok_log (ps : List KeyPacket) (hid : HID)
    (h : (KeyPacket.sendAll ps hid).2 = true) :
    (KeyPacket.sendAll ps hid).1.log = hid.log ++ ps.map KeyPacket.data := by
  induction ps generalizing hid with
  | nil => simp [KeyPacket.sendAll]
  | cons p ps ih =>
    rw [KeyPacket.sendAll] at h ⊢
    cases hsend : hid.sendKeyPacket p.data with
    | none => rw [hsend] at h; simp at h
    | some h1 =>
      rw [hsend] at h
      dsimp only at h ⊢
      have hlog : h1.log = hid.log ++ [p.data] := by
        rw [HID.sendKeyPacket] at hsend
        split at hsend
        · exact absurd hsend (by simp)
        · cases hsend; rfl
      rw [ih h1 h, hlog]
      simp

/-- C3 (amended): flush (send) on an empty queue writes nothing and
returns Ok with the keyboard unchanged; on a nonempty queue a successful
flush appends one final hold-state snapshot, writes every queued report in
order through the transport, and clears the queue, so that on success the
queue is empty and the hold-state is unchanged. -/
theorem C3_flush (kb : Keyboard) (hid : HID) :
    (kb.packets = [] → kb.send hid = (kb, hid, true)) ∧
    ((kb.send hid).2.2 = true →
      (kb.send hid).1.packets = [] ∧ (kb.send hid).1.holding = kb.holding ∧
      (kb.packets ≠ [] →
        (kb.send hid).2.1.log =
          hid.log ++ (kb.packets ++ [kb.holding]).map KeyPacket.data)) := by
  constructor
  · intro hp
    rw [Keyboard.send]
    simp [hp]
  · intro hs
    by_cases he : kb.packets.length = 0
    · have hp : kb.packets = [] := List.length_eq_zero.mp he
      rw [Keyboard.send]
      simp [he, hp]
    · rcases hsa : KeyPacket.sendAll (kb.packets ++ [kb.holding]) hid with ⟨hid1, b⟩
      cases b with
      | false =>
        exfalso
        rw [Keyboard.send] at hs
        simp only [he, if_false, Keyboard.createReleasePacket] at hs
        rw [hsa] at hs
        simp at hs
      | true =>
        have hlog : hid1.log = hid.log ++ (kb.packets ++ [kb.holding]).map KeyPacket.data := by
          have := sendAll_ok_log (kb.packets ++ [kb.holding]) hid (by rw [hsa])
          rwa [hsa] at this
        rw [Keyboard.send]
        simp only [he, if_false, Keyboard.createReleasePacket]
        rw [hsa]
        exact ⟨rfl, rfl, fun _ => hlog⟩

/-- Witness for C3: a keyboard with one queued snapshot flushed over an
always-succeeding transport ends with an empty queue and the two expected
writes. -/
theorem C3_witness :
    (oneSnapshotKeyboard.send hidOK).1.packets = [] ∧
    (oneSnapshotKeyboard.send hidOK).2.1.log = [KeyPacket.new.data, KeyPacket.new.data] := by
  have h := (C3_flush oneSnapshotKeyboard hidOK).2 (by decide)
  refine ⟨h.1, ?_⟩
  rw [h.2.2 (by decide)]
  decide

/-- Counterexample for C3 as stated: from a fresh keyboard (empty queue),
send returns at once and writes nothing, in particular it does not write
the final ambient hold-state snapshot the claim promises for every
keyboard state. -/
theorem C3_counterexample :
    (Keyboard.new.send hidOK).2.1.log = [] ∧
    (Keyboard.new.send hidOK).2.1.log ≠ [KeyPacket.new.data] := by decide

/-- C5 (amended): when a write fails during flush, send propagates the
failure, and the queue afterwards is exactly the original queue with the
one final hold-state snapshot appended — every originally queued report is
retained, in its original position, and the hold-state is unchanged (the
appended snapshot may coincide in value with an already-queued report). -/
theorem C5_flush_failure (kb : Keyboard) (hid : HID)
    (h : (kb.send hid).2.2 = false) :
    (kb.send hid).1.packets = kb.packets ++ [kb.holding] ∧
    (kb.send hid).1.holding = kb.holding := by
  by_cases he : kb.packets.length = 0
  · rw [Keyboard.send] at h
    simp [he] at h
  · rcases hsa : KeyPacket.sendAll (kb.packets ++ [kb.holding]) hid with ⟨hid1, b⟩
    cases b with
    | false =>
      rw [Keyboard.send]
      simp only [he, if_false, Keyboard.createReleasePacket]
      rw [hsa]
      exact ⟨rfl, rfl⟩
    | true =>
      exfalso
      rw [Keyboard.send] at h
      simp only [he, if_false, Keyboard.createReleasePacket] at h
      rw [hsa] at h
      simp at h

/-- Witness for C5: a failing transport makes send return the error while
the queue keeps the original report followed by the appended snapshot. -/
theorem C5_witness :
    (oneSnapshotKeyboard.send hidFail).2.2 = false ∧
    (oneSnapshotKeyboard.send hidFail).1.packets =
      oneSnapshotKeyboard.packets ++ [oneSnapshotKeyboard.holding] :=
  ⟨by decide, (C5_flush_failure oneSnapshotKeyboard hidFail (by decide)).1⟩

/-- Counterexample for C5 as stated: the all-zero report was queued once
before the failing flush and occurs twice in the queue afterwards (the
appended final snapshot duplicates its value), so "no already-queued
report is duplicated" fails. -/
theorem C5_counterexample :
    oneSnapshotKeyboard.packets.count KeyPacket.new = 1 ∧
    (oneSnapshotKeyboard.send hidFail).2.2 = false ∧
    (oneSnapshotKeyboard.send hidFail).1.packets.count KeyPacket.new = 2 := by decide

/-- C4 (amended): on a nonempty queue, a successful send_keep writes the
queued reports in order and then one extra trailing hold-state report that
is not appended to the queue, and leaves the keyboard — queue and
hold-state — exactly as it was (the receiver is a shared borrow); on an
empty queue it writes nothing. -/
theorem C4_flush_keep (kb : Keyboard) (hid : HID) (hne : kb.packets ≠ [])
    (h : (kb.sendKeep hid).2.2 = true) :
    (kb.sendKeep hid).1 = kb ∧
    (kb.sendKeep hid).2.1.log =
      hid.log ++ kb.packets.map KeyPacket.data ++ [kb.holding.data] := by
  have he : ¬ kb.packets.length = 0 := by
    simpa [List.length_eq_zero] using hne
  rcases hsa : KeyPacket.sendAll kb.packets hid with ⟨hid1, b⟩
  cases b with
  | false =>
    exfalso
    rw [Keyboard.sendKeep] at h
    simp only [he, if_false] at h
    rw [hsa] at h
    simp at h
  | true =>
    have hlog1 : hid1.log = hid.log ++ kb.packets.map KeyPacket.data := by
      have := sendAll_ok_log kb.packets hid (by rw [hsa])
      rwa [hsa] at this
    cases hsend : hid1.sendKeyPacket kb.createReleasePacket.data with
    | none =>
      exfalso
      rw [Keyboard.sendKeep] at h
      simp only [he, if_false] at h
      rw [hsa] at h
      dsimp only at h
      rw [hsend] at h
      simp at h
    | some hid2 =>
      have hlog2 : hid2.log = hid1.log ++ [kb.holding.data] := by
        rw [HID.sendKeyPacket] at hsend
        split at hsend
        · exact absurd hsend (by simp)
        · cases hsend; rfl
      rw [Keyboard.sendKeep]
      simp only [he, if_false]
      rw [hsa]
      dsimp only
      rw [hsend]
      exact ⟨rfl, by rw [hlog2, hlog1]⟩

/-- Witness for C4: a keyboard with one queued snapshot sent with
send_keep over an always-succeeding transport is returned unchanged, with
the queued report written followed by the trailing hold-state write. -/
theorem C4_witness :
    (oneSnapshotKeyboard.sendKeep hidOK).1 = oneSnapshotKeyboard ∧
    (oneSnapshotKeyboard.sendKeep hidOK).2.1.log =
      [KeyPacket.new.data, KeyPacket.new.data] := by
  have h := C4_flush_keep oneSnapshotKeyboard hidOK (by decide) (by decide)
  exact ⟨h.1, by rw [h.2]; decide⟩

/-- Counterexample for C4 as stated: on a fresh keyboard (empty queue)
send_keep writes nothing at all, while the claim's extra trailing
hold-state write would make the log [hold-state snapshot]. -/
theorem C4_counterexample :
    (Keyboard.new.sendKeep hidOK).2.1.log = [] ∧
    (Keyboard.new.sendKeep hidOK).2.1.log ≠ [KeyPacket.new.data] := by decide

theorem keyPacket_eq_of_data (a b : KeyPacket) (h : a.data = b.data) : a = b := by
  cases a; cases b; cases h; rfl

/-- C6: a successful mouse flush with hold mask 0 writes the pending
report followed by the all-zero report; with hold mask M ≠ 0 it writes the
pending report with M OR-ed into the button byte followed by a report
whose button byte is M and whose X, Y and wheel bytes are zero.  In both
cases the final written report is (replicate 5 0).set 0 hold — all zeros
when the hold mask is 0. -/
theorem C6_mouse_flush (m : Mouse) (hid : HID)
    (h : (m.send hid).2.2 = true) :
    (m.send hid).2.1.log =
      hid.log ++
        (if m.hold = 0 then [m.data, List.replicate 5 0]
         else [m.data.set 0 (m.data.getD 0 0 ||| m.hold),
           (List.replicate 5 0).set 0 m.hold]) ∧
    (m.send hid).2.1.log.getLast? = some ((List.replicate 5 0).set 0 m.hold) ∧
    ((List.replicate 5 0).set 0 m.hold).getD 0 0 = m.hold ∧
    ((List.replicate 5 0).set 0 m.hold).getD 1 0 = 0 ∧
    ((List.replicate 5 0).set 0 m.hold).getD 2 0 = 0 ∧
    ((List.replicate 5 0).set 0 m.hold).getD 3 0 = 0 := by
  by_cases h0 : m.hold = 0
  · rw [Mouse.send] at h ⊢
    rw [if_pos h0] at h
    rw [if_pos h0, if_pos h0]
    cases hs1 : hid.sendMousePacket m.data with
    | none => rw [hs1] at h; simp at h
    | some h1 =>
      rw [hs1] at h
      dsimp only at h ⊢
      cases hs2 : h1.sendMousePacket (List.replicate 5 0) with
      | none => rw [hs2] at h; simp at h
      | some h2 =>
        dsimp only
        have hl1 : h1.log = hid.log ++ [m.data] := by
          rw [HID.sendMousePacket] at hs1
          split at hs1
          · exact absurd hs1 (by simp)
          · cases hs1; rfl
        have hl2 : h2.log = h1.log ++ [List.replicate 5 0] := by
          rw [HID.sendMousePacket] at hs2
          split at hs2
          · exact absurd hs2 (by simp)
          · cases hs2; rfl
        have hset : (List.replicate 5 (0 : Nat)).set 0 0 = List.replicate 5 0 := by decide
        rw [hl2, hl1, h0, hset]
        refine ⟨by simp, ?_, rfl, rfl, rfl, rfl⟩
        exact List.getLast?_concat _
  · rw [Mouse.send] at h ⊢
    rw [if_neg h0] at h
    rw [if_neg h0, if_neg h0]
    simp only [MOUSE_DATA_BUT_IDX] at h ⊢
    cases hs1 : hid.sendMousePacket (m.data.set 0 (m.data.getD 0 0 ||| m.hold)) with
    | none => rw [hs1] at h; simp at h
    | some h1 =>
      rw [hs1] at h
      dsimp only at h ⊢
      cases hs2 : h1.sendMousePacket ((List.replicate 5 0).set 0 m.hold) with
      | none => rw [hs2] at h; simp at h
      | some h2 =>
        dsimp only
        have hl1 : h1.log = hid.log ++ [m.data.set 0 (m.data.getD 0 0 ||| m.hold)] := by
          rw [HID.sendMousePacket] at hs1
          split at hs1
          · exact absurd hs1 (by simp)
          · cases hs1; rfl
        have hl2 : h2.log = h1.log ++ [(List.replicate 5 0).set 0 m.hold] := by
          rw [HID.sendMousePacket] at hs2
          split at hs2
          · exact absurd hs2 (by simp)
          · cases hs2; rfl
        rw [hl2, hl1]
        refine ⟨by simp, ?_, rfl, rfl, rfl, rfl⟩
        exact List.getLast?_concat _

/-- Witness for C6: flushing a mouse with pending report [9, 8, 7, 6, 0]
and empty hold mask writes that report and then the all-zero report. -/
theorem C6_witness :
    ((Mouse.mk [9, 8, 7, 6, 0] 0).send hidOK).2.1.log =
      [[9, 8, 7, 6, 0], [0, 0, 0, 0, 0]] ∧
    ((Mouse.mk [9, 8, 7, 6, 0] 0).send hidOK).2.1.log.getLast? =
      some [0, 0, 0, 0, 0] := by
  have h := C6_mouse_flush (Mouse.mk [9, 8, 7, 6, 0] 0) hidOK (by decide)
  refine ⟨?_, ?_⟩
  · rw [h.1]; decide
  · rw [h.2.1]; decide

theorem addKey_getD_key (p : KeyPacket) (m k : Nat)
    (hlen : p.data.length = 33) (hk : k < 256) :
    (p.addKey (m, k)).data.getD (1 + k / 8) 0 =
      p.data.getD (1 + k / 8) 0 ||| (1 <<< (k % 8)) := by
  rw [KeyPacket.addKey]
  dsimp only
  rw [getD_set_ne _ 0 (1 + k / 8) _ (by omega), getD_set_self]
  rw [List.length_set, hlen]
  omega

/-- C8: for every report and every two-byte key encoding (modifier byte
below 256, keycode byte below 256), setting the key with add_key and then
clearing it with remove_key leaves every keycode-bitmap byte other than
the key's own byte 1 + k / 8 unchanged, and the composite equals clearing
alone — remove_key ANDs with the complement of exactly the bits add_key
ORs in. -/
theorem C8_add_remove_key (p : KeyPacket) (m k : Nat)
    (hlen : p.data.length = 33) (hm : m < 256) (hk : k < 256) :
    (∀ i, 1 ≤ i → i ≠ 1 + k / 8 →
      ((p.addKey (m, k)).removeKey (m, k)).data.getD i 0 = p.data.getD i 0) ∧
    (p.addKey (m, k)).removeKey (m, k) = p.removeKey (m, k) := by
  have hidx : (0 : Nat) ≠ 1 + k / 8 := by omega
  have hbit : (1 <<< (k % 8)) < 256 := shiftLeft_lt_256 _ (Nat.mod_lt _ (by omega))
  have hA : (p.addKey (m, k)).data =
      (p.data.set 0 (p.data.getD 0 0 ||| m)).set (1 + k / 8)
        (p.data.getD (1 + k / 8) 0 ||| (1 <<< (k % 8))) := by
    rw [KeyPacket.addKey]
    dsimp only
    rw [getD_set_ne _ 0 (1 + k / 8) _ hidx]
  have hget0 : (p.addKey (m, k)).data.getD 0 0 = p.data.getD 0 0 ||| m := by
    rw [hA, getD_set_ne _ (1 + k / 8) 0 _ (Ne.symm hidx), getD_set_self]
    rw [hlen]
    omega
  have hgetk := addKey_getD_key p m k hlen hk
  have hR : ((p.addKey (m, k)).removeKey (m, k)).data =
      (p.data.set 0 (p.data.getD 0 0 &&& (255 ^^^ m))).set (1 + k / 8)
        (p.data.getD (1 + k / 8) 0 &&& (255 ^^^ (1 <<< (k % 8)))) := by
    rw [KeyPacket.removeKey]
    dsimp only
    rw [getD_set_ne _ 0 (1 + k / 8) _ hidx, hget0, hgetk, hA]
    rw [byte_or_and_compl _ _ hm, byte_or_and_compl _ _ hbit]
    rw [List.set_comm _ _ _ (Ne.symm hidx), List.set_set, List.set_set]
  refine ⟨?_, ?_⟩
  · intro i h1 hne
    rw [hR, getD_set_ne _ _ _ _ (Ne.symm hne), getD_set_ne _ 0 i _ (by omega)]
  · apply keyPacket_eq_of_data
    rw [hR, KeyPacket.removeKey]
    dsimp only
    rw [getD_set_ne _ 0 (1 + k / 8) _ hidx]

/-- Witness for C8: on the all-zero report with the encoding of 'A'
(modifier 2, keycode 4), add_key then remove_key equals remove_key alone,
and bitmap byte 5 is untouched. -/
theorem C8_witness :
    (KeyPacket.new.addKey (2, 4)).removeKey (2, 4) = KeyPacket.new.removeKey (2, 4) ∧
    ((KeyPacket.new.addKey (2, 4)).removeKey (2, 4)).data.getD 5 0 =
      KeyPacket.new.data.getD 5 0 := by
  have h := C8_add_remove_key KeyPacket.new 2 4 (by decide) (by decide) (by decide)
  exact ⟨h.2, h.1 5 (by decide) (by decide)⟩

theorem toKBytes_keycode_lt (c : Char) (o : KeyOrigin) (t : Nat × Nat)
    (h : toKBytes c o = some t) : t.2 < 256 := by
  cases o with
  | Keyboard =>
    rw [toKBytes] at h
    cases hf : keyboardKeys.find? (fun e => e.1 == c) with
    | none => rw [hf] at h; simp at h
    | some e =>
      rw [hf] at h
      simp at h
      have hmem : e ∈ keyboardKeys := List.mem_of_find?_eq_some hf
      have hall : ∀ x ∈ keyboardKeys, x.2.2 < 256 := by decide
      rw [← h]
      exact hall e hmem
  | Keypad =>
    rw [toKBytes] at h
    cases hf : keypadKeys.find? (fun e => e.1 == c) with
    | none => rw [hf] at h; simp at h
    | some e =>
      rw [hf] at h
      simp at h
      have hmem : e ∈ keypadKeys := List.mem_of_find?_eq_some hf
      have hall : ∀ x ∈ keypadKeys, x.2.2 < 256 := by decide
      rw [← h]
      exact hall e hmem
  | Misc => rw [toKBytes] at h; simp at h

theorem getKey_addKey (p : KeyPacket) (t : Nat × Nat)
    (hlen : p.data.length = 33) (hk : t.2 < 256) :
    (p.addKey t).getKey t = true := by
  obtain ⟨m, k⟩ := t
  rw [KeyPacket.getKey]
  rw [addKey_getD_key p m k hlen hk]
  rw [byte_or_and_self]
  simp [shiftLeft_ne_zero]

/-- C9 (amended): press_basic_string resolves each character in order; a
character with no keycode mapping is silently skipped (it adds nothing to
the queue and is not an error) while the remaining characters are still
processed, and each resolved character queues one transient report
(hold-state plus the key) followed unconditionally by a release snapshot
of the hold-state — no collision check against the previous entry is
performed (the unconditional snapshot is what separates repeated
keystrokes).  The hold-state is unchanged. -/
theorem C9_press_basic_string (kb : Keyboard) (s : List Char)
    (hlen : kb.holding.data.length = 33) :
    (kb.pressBasicString s).holding = kb.holding ∧
    (kb.pressBasicString s).packets =
      kb.packets ++
        (s.filterMap (fun c => toKBytes c KeyOrigin.Keyboard)).flatMap
          (fun t => [kb.holding.addKey t, kb.holding]) := by
  induction s generalizing kb with
  | nil => simp [Keyboard.pressBasicString]
  | cons c cs ih =>
    rw [Keyboard.pressBasicString]
    cases hres : toKBytes c KeyOrigin.Keyboard with
    | none =>
      have := ih kb hlen
      simpa [hres, List.filterMap_cons] using this
    | some t =>
      dsimp only
      have hns : ((kb.createReleasePacket).addKey t).getKey t = true := by
        rw [Keyboard.createReleasePacket]
        exact getKey_addKey kb.holding t hlen (toKBytes_keycode_lt c _ t hres)
      rw [hns]
      simp only [if_true, Keyboard.createReleasePacket]
      have h2 := ih { kb with
        packets := (kb.packets ++ [kb.holding.addKey t]) ++ [kb.holding] } hlen
      rcases h2 with ⟨h2h, h2p⟩
      refine ⟨h2h, ?_⟩
      rw [h2p]
      simp [hres, List.filterMap_cons, List.append_assoc]

/-- Witness for C9: pressing the string "a¡b" (the middle character has no
mapping) from a fresh keyboard queues the 'a' report, a release snapshot,
the 'b' report and a release snapshot, skipping the unresolved character. -/
theorem C9_witness :
    (Keyboard.new.pressBasicString ['a', '¡', 'b']).holding = Keyboard.new.holding ∧
    (Keyboard.new.pressBasicString ['a', '¡', 'b']).packets =
      Keyboard.new.packets ++
        ((['a', '¡', 'b'].filterMap (fun c => toKBytes c KeyOrigin.Keyboard)).flatMap
          (fun t => [Keyboard.new.holding.addKey t, Keyboard.new.holding])) :=
  C9_press_basic_string Keyboard.new ['a', '¡', 'b'] (by decide)

/-- Counterexample for C9 as stated: on "ab" from a fresh keyboard the code
queues 4 reports (each resolved character is followed by an unconditional
release snapshot), while the claim's per-character collision check would
queue only the 2 non-colliding transient reports; so press_basic_string
does not precede each transient report by a collision check. -/
theorem C9_counterexample :
    (Keyboard.new.pressBasicString ['a', 'b']).packets.length = 4 ∧
    (Keyboard.new.pressBasicStringSpec ['a', 'b']).packets.length = 2 ∧
    (Keyboard.new.pressBasicString ['a', 'b']).packets ≠
      (Keyboard.new.pressBasicStringSpec ['a', 'b']).packets := by decide

/-- C10: calling move_mouse twice on the same axis overwrites — the axis
byte of the pending report afterwards is the two's-complement byte of the
second displacement alone, and the button, other-axis, wheel and reserved
bytes and the hold mask are unchanged. -/
theorem C10_move_overwrite (m : Mouse) (d1 d2 : Int) (dir : MouseDir)
    (hlen : m.data.length = 5)
    (h1 : -128 ≤ d1) (h2 : d1 ≤ 127) (h3 : -128 ≤ d2) (h4 : d2 ≤ 127) :
    ((m.moveMouse d1 dir).moveMouse d2 dir).data =
      m.data.set (match dir with | .X => MOUSE_DATA_X_IDX | .Y => MOUSE_DATA_Y_IDX)
        (i8Byte d2) ∧
    ((m.moveMouse d1 dir).moveMouse d2 dir).hold = m.hold ∧
    ((m.moveMouse d1 dir).moveMouse d2 dir).data.getD
      (match dir with | .X => MOUSE_DATA_X_IDX | .Y => MOUSE_DATA_Y_IDX) 0 = i8Byte d2 ∧
    ∀ j, j ≠ (match dir with | .X => MOUSE_DATA_X_IDX | .Y => MOUSE_DATA_Y_IDX) →
      ((m.moveMouse d1 dir).moveMouse d2 dir).data.getD j 0 = m.data.getD j 0 := by
  cases dir with
  | X =>
    dsimp only
    rw [Mouse.moveMouse, Mouse.moveMouse]
    dsimp only
    rw [List.set_set]
    refine ⟨rfl, rfl, ?_, ?_⟩
    · apply getD_set_self
      rw [hlen]
      simp [MOUSE_DATA_X_IDX]
    · intro j hj
      exact getD_set_ne _ _ _ _ (Ne.symm hj)
  | Y =>
    dsimp only
    rw [Mouse.moveMouse, Mouse.moveMouse]
    dsimp only
    rw [List.set_set]
    refine ⟨rfl, rfl, ?_, ?_⟩
    · apply getD_set_self
      rw [hlen]
      simp [MOUSE_DATA_Y_IDX]
    · intro j hj
      exact getD_set_ne _ _ _ _ (Ne.symm hj)

/-- Witness for C10: moving X by 7 then by -1 on a mouse with pending
report [1, 2, 3, 4, 0] leaves [1, 255, 3, 4, 0] — byte 1 is the
two's-complement byte of -1 and everything else is untouched. -/
theorem C10_witness :
    (((Mouse.mk [1, 2, 3, 4, 0] 5).moveMouse 7 MouseDir.X).moveMouse (-1) MouseDir.X).data =
      [1, 2, 3, 4, 0].set MOUSE_DATA_X_IDX (i8Byte (-1)) ∧
    (((Mouse.mk [1, 2, 3, 4, 0] 5).moveMouse 7 MouseDir.X).moveMouse (-1) MouseDir.X).hold = 5 := by
  have h := C10_move_overwrite (Mouse.mk [1, 2, 3, 4, 0] 5) 7 (-1) MouseDir.X
    (by decide) (by decide) (by decide) (by decide) (by decide)
  exact ⟨h.1, h.2.1⟩
